import Mathlib

/-!
Shallow embedding of the MPTCP default scheduler (net/mptcp/mptcp_sched.c)
and verification of its specification claims.

Machine integers (`u32`) are modelled as `Nat`, with wrap-around applied
explicitly (`mask32`, `sub32`) exactly where the C code performs unsigned
arithmetic.  Sequence-number comparisons `before`/`after` are the kernel's
wrap-aware signed comparisons.  External kernel primitives that are not part
of the repository (e.g. `tcp_current_mss`, `tcp_packets_in_flight`,
`tcp_wnd_end`, `sk_stream_memory_free`, `usecs_to_jiffies`, `tcp_cwnd_test`,
`tcp_snd_wnd_test`, `capable`) are modelled as state fields or explicit
oracle parameters, following the external-interface contract of the spec.
-/

namespace MptcpSched

/-- The modulus of `u32` arithmetic, `2^32`. -/
def U32 : Nat := 4294967296

/-- The sign threshold of a reinterpreted `s32`, `2^31`. -/
def S31 : Nat := 2147483648

/-- The initial `min_srtt` of the selector, `0xffffffff`. -/
def u32max : Nat := 4294967295

/-- Truncation to `u32`. -/
def mask32 (a : Nat) : Nat := a % U32

/-- Unsigned `u32` subtraction `a - b` with wrap-around. -/
def sub32 (a b : Nat) : Nat := (mask32 a + U32 - mask32 b) % U32

/-- Kernel `before(a, b)`: `(s32)(a - b) < 0`, wrap-aware. -/
def before32 (a b : Nat) : Bool := decide (S31 ≤ sub32 a b)

/-- Kernel `after(a, b) = before(b, a)`. -/
def after32 (a b : Nat) : Bool := before32 b a

/-- Values of `icsk_ca_state` used by the scheduler. -/
inductive CaState
  | Open
  | Disorder
  | CWR
  | Recovery
  | Loss
deriving DecidableEq

/-- One subflow: the `tcp_sock`/`mptcp_tcp_sock` fields the scheduler reads
or writes.  `packets_in_flight`, `mss_now`, `wnd_end` and `can_send` stand
for the external primitives `tcp_packets_in_flight`, `tcp_current_mss`,
`tcp_wnd_end` and `mptcp_sk_can_send` evaluated on this subflow.
`last_rbuf_opti` is the default scheduler's per-subflow private scratch
(`struct defsched_priv`). -/
structure Sub where
  snd_cwnd : Nat
  snd_ssthresh : Nat
  snd_una : Nat
  snd_nxt : Nat
  high_seq : Nat
  write_seq : Nat
  srtt_us : Nat
  packets_in_flight : Nat
  mss_now : Nat
  wnd_end : Nat
  gso_max_segs : Nat
  ca_state : CaState
  is_reno : Bool
  can_send : Bool
  path_index : Nat
  fully_established : Bool
  pre_established : Bool
  second_packet : Bool
  pf : Bool
  low_prio : Bool
  rcv_low_prio : Bool
  last_end_data_seq : Nat
  last_rbuf_opti : Nat
deriving DecidableEq

/-- A meta-level segment (`sk_buff` with its `TCP_SKB_CB`): sequence number,
length, path mask, and the data-fin flag (`mptcp_is_data_fin`). -/
structure Skb where
  seq : Nat
  len : Nat
  path_mask : Nat
  is_data_fin : Bool
deriving DecidableEq

/-- Modelled from the spec: the macro `mptcp_pi_to_flag` is not part of the
repository source; the spec defines `path_mask(S) = 1 << path_index`. -/
def mptcp_pi_to_flag (pi : Nat) : Nat := 2 ^ pi

/-- Source `mptcp_is_def_unavailable`: not in a sendable state, or not fully
established (4th ack pending), or potentially failed. -/
def mptcp_is_def_unavailable (s : Sub) : Bool :=
  !s.can_send || s.pre_established || s.pf

/-- Loss-state early return of `mptcp_is_temp_unavailable`. -/
def tuLossCond (s : Sub) : Bool :=
  decide (s.ca_state = CaState.Loss) &&
    (!s.is_reno || decide (¬ s.snd_una = s.high_seq))

/-- In-order-delivery early return of `mptcp_is_temp_unavailable` (subflow
not fully established). -/
def tuOrderCond (s : Sub) (skb : Option Skb) : Bool :=
  !s.fully_established &&
    (match skb with
     | some k => s.second_packet && decide (¬ s.last_end_data_seq = k.seq)
     | none => false)

/-- "Not even a single spot in the cwnd": `in_flight >= snd_cwnd`. -/
def tuCwndFull (s : Sub) : Bool :=
  decide (s.snd_cwnd ≤ s.packets_in_flight)

/-- The subflow's queued-but-unsent data already fills the cwnd:
`write_seq - snd_nxt >= (snd_cwnd - in_flight) * mss_now` (u32 math). -/
def tuQueueFull (s : Sub) : Bool :=
  decide (mask32 ((s.snd_cwnd - s.packets_in_flight) * s.mss_now) ≤
          sub32 s.write_seq s.snd_nxt)

/-- Clause `!before(write_seq, tcp_wnd_end(tp))`: the subflow send window is
already exhausted. -/
def tuZeroWnd (s : Sub) : Bool :=
  !(before32 s.write_seq s.wnd_end)

/-- The per-segment zero-window clause of `mptcp_is_temp_unavailable` as
written in the source: `after(tp->write_seq + min(skb->len, mss_now),
tcp_wnd_end(tp))` (note: the subflow's `write_seq`, not the segment's
sequence number). -/
def tuSegWnd (s : Sub) (skb : Option Skb) : Bool :=
  match skb with
  | some k => after32 (mask32 (s.write_seq + min k.len s.mss_now)) s.wnd_end
  | none => false

/-- Source `mptcp_is_temp_unavailable(sk, skb, zero_wnd_test)`: each disjunct is
one early `return true` of the C function, in source order. -/
def mptcp_is_temp_unavailable (s : Sub) (skb : Option Skb) (z : Bool) : Bool :=
  tuLossCond s || tuOrderCond s skb || tuCwndFull s || tuQueueFull s ||
    (z && tuZeroWnd s) || (z && tuSegWnd s skb)

/-- The per-segment zero-window clause as the spec sentence words it:
`K.seq + min(K.len, S.mss_now) > S.wnd_end`, i.e. using the segment's own
sequence number instead of the subflow's `write_seq`.  Written only to be
compared against the source-derived `tuSegWnd` (claim C1). -/
def tuSegWndSpecC1 (s : Sub) (skb : Option Skb) : Bool :=
  match skb with
  | some k => after32 (mask32 (k.seq + min k.len s.mss_now)) s.wnd_end
  | none => false

/-- Variant of `mptcp_is_temp_unavailable` as claim C1's spec sentence would have it:
identical to the source function except that the per-segment zero-window
clause uses `K.seq`. -/
def mptcp_is_temp_unavailable_specC1 (s : Sub) (skb : Option Skb) (z : Bool) : Bool :=
  tuLossCond s || tuOrderCond s skb || tuCwndFull s || tuQueueFull s ||
    (z && tuZeroWnd s) || (z && tuSegWndSpecC1 s skb)

/-- Source `mptcp_is_available(sk, skb, zero_wnd_test)`. -/
def mptcp_is_available (s : Sub) (skb : Option Skb) (z : Bool) : Bool :=
  !(mptcp_is_def_unavailable s) && !(mptcp_is_temp_unavailable s skb z)

/-- Source `mptcp_dont_reinject_skb`: the segment exists and has already been
enqueued on this subflow (its path bit is set in the segment's mask). -/
def mptcp_dont_reinject_skb (s : Sub) (skb : Option Skb) : Bool :=
  match skb with
  | some k => decide (¬ Nat.land (mptcp_pi_to_flag s.path_index) k.path_mask = 0)
  | none => false

/-- Source `subflow_is_backup`. -/
def subflow_is_backup (s : Sub) : Bool := s.rcv_low_prio || s.low_prio

/-- Source `subflow_is_active`. -/
def subflow_is_active (s : Sub) : Bool := !s.rcv_low_prio && !s.low_prio

/-- Loop state of `get_subflow_from_selectors`: the current best candidate,
its `srtt_us`, and the `found_unused` / `found_unused_una` flags. -/
structure SelSt where
  bestsk : Option Sub
  min_srtt : Nat
  found_unused : Bool
  found_unused_una : Bool
deriving DecidableEq

/-- Initial state of the selector loop (`bestsk = NULL`,
`min_srtt = 0xffffffff`). -/
def selInit : SelSt := ⟨none, u32max, false, false⟩

/-- One iteration of the `mptcp_for_each_sub` loop body of
`get_subflow_from_selectors`, in source order. -/
def selStep (skb : Option Skb) (sel : Sub → Bool) (z : Bool)
    (st : SelSt) (s : Sub) : SelSt :=
  if !(sel s) then st
  else
    let unused := !(mptcp_dont_reinject_skb s skb)
    if !unused && st.found_unused then st
    else if mptcp_is_def_unavailable s then st
    else if mptcp_is_temp_unavailable s skb z then
      (if unused then { st with found_unused_una := true } else st)
    else
      let st1 :=
        if unused && !st.found_unused then
          { st with bestsk := none, min_srtt := u32max, found_unused := true }
        else if unused then { st with found_unused := true }
        else st
      if decide (s.srtt_us < st1.min_srtt) then
        { st1 with bestsk := some s, min_srtt := s.srtt_us }
      else st1

/-- The full scan of `get_subflow_from_selectors` over the subflow list. -/
def selLoop (skb : Option Skb) (sel : Sub → Bool) (z : Bool) :
    SelSt → List Sub → SelSt
  | st, [] => st
  | st, s :: rest => selLoop skb sel z (selStep skb sel z st s) rest

/-- Result of `get_subflow_from_selectors`: the chosen subflow (or none) and
the `*force` output. -/
structure PickOut where
  sk : Option Sub
  force : Bool
deriving DecidableEq

/-- Source `get_subflow_from_selectors(mpcb, skb, selector, zero_wnd_test, force)`.
If a best subflow was found, `force` reports `found_unused`; otherwise it
reports `found_unused_una`. -/
def get_subflow_from_selectors (subs : List Sub) (skb : Option Skb)
    (sel : Sub → Bool) (z : Bool) : PickOut :=
  let st := selLoop skb sel z selInit subs
  match st.bestsk with
  | some b => ⟨some b, st.found_unused⟩
  | none => ⟨none, st.found_unused_una⟩

/-- Clearing a segment's path mask (`TCP_SKB_CB(skb)->path_mask = 0`). -/
def skbClearMask (k : Skb) : Skb := { k with path_mask := 0 }

/-- The `restart:` loop body of `get_available_subflow`, fully unrolled: the
`looping` flag admits at most one `goto restart`, so the active/backup
selector pair runs at most twice.  The second round never restarts; it
returns the backup pick (after the no-op second mask clear). -/
def gasCore (subs : List Sub) (skb : Option Skb) (z : Bool) : Option Sub :=
  let r1 := get_subflow_from_selectors subs skb subflow_is_active z
  if r1.force then r1.sk
  else
    let r2 := get_subflow_from_selectors subs skb subflow_is_backup z
    if !r2.force && skb.isSome then
      let skb' := skb.map skbClearMask
      let r1' := get_subflow_from_selectors subs skb' subflow_is_active z
      if r1'.force then r1'.sk
      else (get_subflow_from_selectors subs skb' subflow_is_backup z).sk
    else r2.sk

/-- Version of `gasCore` instrumented with a visit trace (one copy of the subflow list
per selector pass, since each pass scans the whole list once) and the
number of `goto restart` executions. -/
def gasCoreInstr (subs : List Sub) (skb : Option Skb) (z : Bool) :
    Option Sub × List Sub × Nat :=
  let r1 := get_subflow_from_selectors subs skb subflow_is_active z
  if r1.force then (r1.sk, subs, 0)
  else
    let r2 := get_subflow_from_selectors subs skb subflow_is_backup z
    if !r2.force && skb.isSome then
      let skb' := skb.map skbClearMask
      let r1' := get_subflow_from_selectors subs skb' subflow_is_active z
      if r1'.force then (r1'.sk, subs ++ subs ++ subs, 1)
      else ((get_subflow_from_selectors subs skb' subflow_is_backup z).sk,
            subs ++ subs ++ subs ++ subs, 1)
    else (r2.sk, subs ++ subs, 0)

/-- The `restart:` loop of `get_available_subflow` with an explicit fuel
bound on the number of rounds, so that termination of the C `goto` loop can
be stated: `none` means the fuel ran out before the loop returned. -/
def gasFuel : Nat → List Sub → Option Skb → Bool → Bool → Option (Option Sub)
  | 0, _, _, _, _ => none
  | Nat.succ fuel, subs, skb, z, looping =>
    let r1 := get_subflow_from_selectors subs skb subflow_is_active z
    if r1.force then some r1.sk
    else
      let r2 := get_subflow_from_selectors subs skb subflow_is_backup z
      if !r2.force && skb.isSome then
        if !looping then gasFuel fuel subs (skb.map skbClearMask) z true
        else some r2.sk
      else some r2.sk

/-- The meta connection: subflow set, queues, fallback flags, shutdown
state, and the socket-level flags read by `__mptcp_next_segment`.
`rtx_head` is `tcp_rtx_queue_head(meta_sk)`, `has_socket`/`nospace`/
`wspace_low` model `meta_sk->sk_socket`, `SOCK_NOSPACE` and
`sk_stream_wspace < sk_stream_min_wspace`. -/
structure Meta where
  subs : List Sub
  reinject_queue : List Skb
  send_head : Option Skb
  rtx_head : Option Skb
  infinite_mapping_snd : Bool
  send_infinite_mapping : Bool
  sk_shutdown_rcv : Bool
  dfin_path_index : Nat
  has_socket : Bool
  nospace : Bool
  wspace_low : Bool

/-- The "answer data_fin on same subflow" early-return scan of
`get_available_subflow`: when the meta receive side is shut down and the
segment is a data-fin, return the first subflow on the data-fin path that
is available. -/
def dfinPick (m : Meta) (skb : Option Skb) (z : Bool) : Option Sub :=
  match skb with
  | some k =>
    if m.sk_shutdown_rcv && k.is_data_fin then
      m.subs.find? (fun s =>
        decide (s.path_index = m.dfin_path_index) &&
          mptcp_is_available s (some k) z)
    else none
  | none => none

/-- Source `get_available_subflow(meta_sk, skb, zero_wnd_test)`: answer a data-fin
on the subflow that carried it if that subflow is available, otherwise run
the two-round selector loop. -/
def get_available_subflow (m : Meta) (skb : Option Skb) (z : Bool) :
    Option Sub :=
  match dfinPick m skb z with
  | some s => some s
  | none => gasCore m.subs skb z

/-- The outer guard shared by both scans of `mptcp_rcv_buf_optimization`:
`tp_it != tp && TCP_SKB_CB(skb_head)->path_mask &
mptcp_pi_to_flag(tp_it->mptcp->path_index)`.  Pointer inequality is
modelled through the (per-connection unique) `path_index`. -/
def scanRelevant (s : Sub) (mask : Nat) (t : Sub) : Bool :=
  decide (¬ t.path_index = s.path_index) &&
  decide (¬ Nat.land mask (mptcp_pi_to_flag t.path_index) = 0)

/-- Condition under which `mptcp_rcv_buf_optimization` penalises a peer
subflow `t` while sending on `s`: a different subflow whose path bit is set
in the retransmit head's mask, slower than `s`, and in `Open` state. -/
def rbufPenalCond (s : Sub) (mask : Nat) (t : Sub) : Bool :=
  scanRelevant s mask t &&
  decide (s.srtt_us < t.srtt_us) &&
  decide (t.ca_state = CaState.Open)

/-- The cwnd/ssthresh halving applied to a penalised peer:
`snd_cwnd = max(snd_cwnd >> 1, 1)`, and if the prior cwnd was at least
`snd_ssthresh`, `snd_ssthresh = max(snd_ssthresh >> 1, 2)`. -/
def rbufPenalApply (t : Sub) : Sub :=
  let prior := t.snd_cwnd
  let t1 := { t with snd_cwnd := max (t.snd_cwnd / 2) 1 }
  if decide (t1.snd_ssthresh ≤ prior) then
    { t1 with snd_ssthresh := max (t1.snd_ssthresh / 2) 2 }
  else t1

/-- The "half the cwnd of the slow flows" scan: the updated subflow list
and whether any peer was penalised (each penalisation also refreshes
`last_rbuf_opti`). -/
def rbufPenalize (s : Sub) (mask : Nat) (subs : List Sub) :
    List Sub × Bool :=
  (subs.map (fun t => if rbufPenalCond s mask t then rbufPenalApply t else t),
   subs.any (rbufPenalCond s mask))

/-- Subflow state after the (possibly skipped) penalisation phase. -/
structure RbufSt where
  s : Sub
  subs : List Sub
deriving DecidableEq

/-- The penalisation phase of `mptcp_rcv_buf_optimization`: halve the
eligible peers, refresh the sender's `last_rbuf_opti` scratch if any peer
was penalised, and reflect the sender's updated scratch in the subflow
list (the scratch lives inside the sender's socket). -/
def rbufPenalPhase (s : Sub) (subs : List Sub) (mask : Nat) (now : Nat) :
    RbufSt :=
  let p := rbufPenalize s mask subs
  let s' := if p.2 then { s with last_rbuf_opti := now } else s
  ⟨s', p.1.map (fun t => if decide (t.path_index = s.path_index) then s' else t)⟩

/-- The `do_retrans` scan of `mptcp_rcv_buf_optimization`, with the
accumulated `do_retrans` value: a peer already carrying the segment with
`snd_cwnd <= 4` decides `true` and stops; otherwise a peer with
`4 * s.srtt_us >= t.srtt_us` (u32 multiply) decides `false` and stops;
otherwise `do_retrans` becomes `true` and the scan continues. -/
def doRetransLoop (s : Sub) (mask : Nat) : Bool → List Sub → Bool
  | acc, [] => acc
  | acc, t :: rest =>
    if scanRelevant s mask t then
      if decide (t.snd_cwnd ≤ 4) then true
      else if decide (t.srtt_us ≤ mask32 (4 * s.srtt_us)) then false
      else doRetransLoop s mask true rest
    else doRetransLoop s mask acc rest

/-- The reinjection decision of `mptcp_rcv_buf_optimization`: if the
retransmit head has not been injected on this path, return it when the
`do_retrans` scan says so and the subflow is available for it with
`zero_wnd_test = false`. -/
def rbufRetransPhase (s : Sub) (subs : List Sub) (h : Skb) : Option Skb :=
  if decide (Nat.land h.path_mask (mptcp_pi_to_flag s.path_index) = 0) then
    if doRetransLoop s h.path_mask false subs &&
       mptcp_is_available s (some h) false then some h
    else none
  else none

/-- Subflow state reached when control arrives at the `retrans:` label:
unchanged if penalisation is bypassed (optional penalisation with free
send-buffer memory, or the once-per-RTT rate limit), otherwise the
penalised state.  `now` is `tcp_jiffies32` and `u2j` is
`usecs_to_jiffies`. -/
def rbufStateAtRetrans (s : Sub) (subs : List Sub) (h : Skb) (penal : Bool)
    (mem_free : Bool) (now : Nat) (u2j : Nat → Nat) : RbufSt :=
  if !penal && mem_free then ⟨s, subs⟩
  else if decide (sub32 now s.last_rbuf_opti < u2j (s.srtt_us / 8)) then
    ⟨s, subs⟩
  else rbufPenalPhase s subs h.path_mask now

/-- Result of `mptcp_rcv_buf_optimization`: the returned segment (if any)
and the updated subflow states. -/
structure RbufOut where
  ret : Option Skb
  s : Sub
  subs : List Sub
deriving DecidableEq

/-- Source `mptcp_rcv_buf_optimization(sk, penal)`.  `rtx_head` is the head of the
meta retransmit queue; `mem_free` is `sk_stream_memory_free(meta_sk)`. -/
def mptcp_rcv_buf_optimization (s : Sub) (subs : List Sub)
    (rtx_head : Option Skb) (penal : Bool) (mem_free : Bool) (now : Nat)
    (u2j : Nat → Nat) : RbufOut :=
  match rtx_head with
  | none => ⟨none, s, subs⟩
  | some h =>
    let st := rbufStateAtRetrans s subs h penal mem_free now u2j
    ⟨rbufRetransPhase st.s st.subs h, st.s, st.subs⟩

/-- Result of `mptcp_next_segment`: the chosen segment, the chosen subflow
(`*subsk`), the split limit (`*limit`) and the reinject tag
(`*reinject ∈ {-1, 0, 1}`). -/
structure NextSegResult where
  skb : Option Skb
  subsk : Option Sub
  limit : Nat
  reinject : Int
deriving DecidableEq

/-- Source `__mptcp_next_segment(meta_sk, reinject)`: fallback mode takes the
send head; otherwise the reinject queue head wins; otherwise the send
head; if everything is empty and the meta socket is send-buffer limited,
ask the scheduler for a subflow and try the receive-buffer optimiser with
optional penalisation.  The vtable call `mpcb->sched_ops->get_subflow` is
the default scheduler's `get_available_subflow`.  Returns the segment,
the reinject tag and the (possibly mutated) subflow list. -/
def mptcpNextSegmentInner (m : Meta) (mem_free : Bool) (now : Nat)
    (u2j : Nat → Nat) : Option Skb × Int × List Sub :=
  if m.infinite_mapping_snd || m.send_infinite_mapping then
    (m.send_head, 0, m.subs)
  else
    match m.reinject_queue.head? with
    | some k => (some k, 1, m.subs)
    | none =>
      match m.send_head with
      | some k => (some k, 0, m.subs)
      | none =>
        if m.has_socket && m.nospace && m.wspace_low then
          match get_available_subflow m none false with
          | none => (none, 0, m.subs)
          | some subsk =>
            let r := mptcp_rcv_buf_optimization subsk m.subs m.rtx_head
                       false mem_free now u2j
            match r.ret with
            | some k => (some k, -1, r.subs)
            | none => (none, 0, r.subs)
        else (none, 0, m.subs)

/-- The `gso_max_segs` lower-clamp of `mptcp_next_segment`: a NIC without
GSO counts as one segment. -/
def nextSegGso (subtp : Sub) : Nat :=
  if decide (subtp.gso_max_segs = 0) then 1 else subtp.gso_max_segs

/-- Value `max_segs = min(tcp_cwnd_test(subtp, skb), gso_max_segs)` of
`mptcp_next_segment`. -/
def nextSegMaxSegs (subtp : Sub) (kF : Skb) (cwt : Sub → Skb → Nat) : Nat :=
  min (cwt subtp kF) (nextSegGso subtp)

/-- Value `remaining_in_flight_space = in_flight_space − (write_seq −
snd_nxt)` of `mptcp_next_segment`, as the `u32` bit pattern of the C
`int` (non-positive iff zero or with the sign bit set). -/
def nextSegRemaining (subtp : Sub) : Nat :=
  sub32 (mask32 (sub32 subtp.snd_cwnd subtp.packets_in_flight * subtp.mss_now))
        (sub32 subtp.write_seq subtp.snd_nxt)

/-- The final `max_len` of `mptcp_next_segment`: the cwnd/GSO-bounded
length, clamped by `remaining_in_flight_space` when that is positive (a
non-positive value only warns), and by the announced receive window
`wnd_end − write_seq`. -/
def nextSegMaxLen (subtp : Sub) (kF : Skb) (cwt : Sub → Skb → Nat) : Nat :=
  min
    (if decide (nextSegRemaining subtp = 0) ||
        decide (S31 ≤ nextSegRemaining subtp) then
       min (subtp.mss_now * nextSegMaxSegs subtp kF cwt) kF.len
     else
       min (min (subtp.mss_now * nextSegMaxSegs subtp kF cwt) kF.len)
         (nextSegRemaining subtp))
    (sub32 subtp.wnd_end subtp.write_seq)

/-- The size/limit computation at the tail of `mptcp_next_segment`: no
split below one MSS; give up when the cwnd admits no segment; otherwise
return the clamped limit.  `cwt` is the external `tcp_cwnd_test`. -/
def nextSegSizeClamp (subtp : Sub) (kF : Skb) (reinjF : Int)
    (cwt : Sub → Skb → Nat) : NextSegResult :=
  if decide (kF.len ≤ subtp.mss_now) then ⟨some kF, some subtp, 0, reinjF⟩
  else if decide (nextSegMaxSegs subtp kF cwt = 0) then
    ⟨none, some subtp, 0, reinjF⟩
  else ⟨some kF, some subtp, nextSegMaxLen subtp kF cwt, reinjF⟩

/-- The receive-window check of `mptcp_next_segment` for fresh sends: when
the segment is fresh (`reinject = 0`) and the meta-level send-window test
fails, fall back to the receive-buffer optimiser with mandatory
penalisation; its segment (tagged `-1`) replaces the fresh one, or the
call gives up.  `swt` is the external `tcp_snd_wnd_test` on the meta. -/
def nextSegStep (m : Meta) (mem_free : Bool) (now : Nat) (u2j : Nat → Nat)
    (swt : Skb → Nat → Bool) (k : Skb) (reinject : Int) (subs1 : List Sub)
    (subtp : Sub) : Option (Skb × Int) :=
  if decide (reinject = 0) && !(swt k subtp.mss_now) then
    match (mptcp_rcv_buf_optimization subtp subs1 m.rtx_head true mem_free
             now u2j).ret with
    | some k2 => some (k2, (-1 : Int))
    | none => none
  else some (k, reinject)

/-- Dispatch on the outcome of the receive-window check. -/
def nextSegAfterStep (subtp : Sub) (reinject : Int)
    (cwt : Sub → Skb → Nat) : Option (Skb × Int) → NextSegResult
  | none => ⟨none, some subtp, 0, reinject⟩
  | some (kF, reinjF) => nextSegSizeClamp subtp kF reinjF cwt

/-- Dispatch on the subflow chosen for the segment. -/
def nextSegWithSubflow (m : Meta) (mem_free : Bool) (now : Nat)
    (u2j : Nat → Nat) (swt : Skb → Nat → Bool) (cwt : Sub → Skb → Nat)
    (k : Skb) (reinject : Int) (subs1 : List Sub) :
    Option Sub → NextSegResult
  | none => ⟨none, none, 0, reinject⟩
  | some subtp =>
    nextSegAfterStep subtp reinject cwt
      (nextSegStep m mem_free now u2j swt k reinject subs1 subtp)

/-- Dispatch on the segment chosen by `__mptcp_next_segment`; the vtable
call `mpcb->sched_ops->get_subflow(meta_sk, skb, false)` is the default
scheduler's `get_available_subflow`. -/
def nextSegFromInner (m : Meta) (mem_free : Bool) (now : Nat)
    (u2j : Nat → Nat) (swt : Skb → Nat → Bool) (cwt : Sub → Skb → Nat) :
    Option Skb → Int → List Sub → NextSegResult
  | none, reinject, _ => ⟨none, none, 0, reinject⟩
  | some k, reinject, subs1 =>
    nextSegWithSubflow m mem_free now u2j swt cwt k reinject subs1
      (get_available_subflow { m with subs := subs1 } (some k) false)

/-- Source `mptcp_next_segment(meta_sk, reinject, subsk, limit)`.  The external
oracles are `swt` for `tcp_snd_wnd_test(meta_tp, skb, mss_now)` and `cwt`
for `tcp_cwnd_test(subtp, skb)` (the spec treats `cwnd_test` as an opaque
non-negative primitive).  Chrono bookkeeping has no effect on the returned
values and is omitted. -/
def mptcp_next_segment (m : Meta) (mem_free : Bool) (now : Nat)
    (u2j : Nat → Nat) (swt : Skb → Nat → Bool) (cwt : Sub → Skb → Nat) :
    NextSegResult :=
  nextSegFromInner m mem_free now u2j swt cwt
    (mptcpNextSegmentInner m mem_free now u2j).1
    (mptcpNextSegmentInner m mem_free now u2j).2.1
    (mptcpNextSegmentInner m mem_free now u2j).2.2

/-- A `struct mptcp_sched_ops` entry: its name and whether the two required
function pointers (`get_subflow`, `next_segment`) are non-NULL. -/
structure SchedOps where
  name : String
  get_subflow_set : Bool
  next_segment_set : Bool
deriving DecidableEq

/-- Error code `-EINVAL`. -/
def eINVAL : Int := -22

/-- Error code `-EEXIST`. -/
def eEXIST : Int := -17

/-- Error code `-ENOENT`. -/
def eNOENT : Int := -2

/-- Error code `-EPERM`. -/
def ePERM : Int := -1

/-- Source `mptcp_sched_find(name)`: first registry entry with a matching name. -/
def mptcp_sched_find (reg : List SchedOps) (name : String) :
    Option SchedOps :=
  reg.find? (fun e => decide (e.name = name))

/-- Source `mptcp_register_scheduler(sched)`: the returned error code and the
registry list after the call. -/
def mptcp_register_scheduler (reg : List SchedOps) (sched : SchedOps) :
    Int × List SchedOps :=
  if !sched.get_subflow_set || !sched.next_segment_set then (eINVAL, reg)
  else if (mptcp_sched_find reg sched.name).isSome then (eEXIST, reg)
  else (0, reg ++ [sched])

/-- Source `__mptcp_sched_find_autoload(name)`.  The external `request_module`
call may register the module while the read guard is dropped, so the
registry observed by the retry is a separate parameter `regAfter`; `cap`
is the external `capable(CAP_NET_ADMIN)` check guarding the autoload
attempt. -/
def mptcp_sched_find_autoload (reg regAfter : List SchedOps) (cap : Bool)
    (name : String) : Option SchedOps :=
  match mptcp_sched_find reg name with
  | some e => some e
  | none => if cap then mptcp_sched_find regAfter name else none

/-- The per-connection scheduler configuration touched by
`mptcp_set_scheduler`: `tcp_sk(sk)->mptcp_sched_name` and
`tcp_sk(sk)->mptcp_sched_setsockopt`. -/
structure ConnSock where
  mptcp_sched_name : String
  mptcp_sched_setsockopt : Bool
deriving DecidableEq

/-- Source `mptcp_set_scheduler(sk, name)`: the returned error code and the
connection state after the call.  `ns_cap` is the external
`ns_capable(sock_net(sk)->user_ns, CAP_NET_ADMIN)` check. -/
def mptcp_set_scheduler (reg regAfter : List SchedOps) (cap ns_cap : Bool)
    (sk : ConnSock) (name : String) : Int × ConnSock :=
  match mptcp_sched_find_autoload reg regAfter cap name with
  | none => (eNOENT, sk)
  | some _ =>
    if !ns_cap then (ePERM, sk)
    else (0, { sk with mptcp_sched_name := name,
                       mptcp_sched_setsockopt := true })

/-- A concrete, fully-available subflow (path index 1) used as a template
by the witnesses and counterexamples below. -/
def sub0 : Sub :=
  { snd_cwnd := 10, snd_ssthresh := 5, snd_una := 0, snd_nxt := 1000,
    high_seq := 0, write_seq := 1000, srtt_us := 10000,
    packets_in_flight := 0, mss_now := 100, wnd_end := 1500,
    gso_max_segs := 2, ca_state := CaState.Open, is_reno := true,
    can_send := true, path_index := 1, fully_established := true,
    pre_established := false, second_packet := false, pf := false,
    low_prio := false, rcv_low_prio := false, last_end_data_seq := 0,
    last_rbuf_opti := 0 }

/-- Segment for the C1 counterexample: its meta-level sequence number 5000
lies far beyond the subflow's window end 1500, while the subflow's own
`write_seq` 1000 is inside the window. -/
def cxSkbC1 : Skb := { seq := 5000, len := 100, path_mask := 0, is_data_fin := false }

/-- Segment (for C1's amended-claim witness) whose length exceeds nothing:
a fresh 100-byte segment. -/
def wSkbC1 : Skb := { seq := 0, len := 100, path_mask := 0, is_data_fin := false }

/-- Peer subflow for the C2 counterexample: path index 2, slower than
`sub0`, in `Open` state, `snd_cwnd = 8`, hence eligible for penalisation. -/
def cxPeerC2 : Sub := { sub0 with path_index := 2, srtt_us := 20000, snd_cwnd := 8 }

/-- Retransmit-queue head for the C2 counterexample: carried only by path
index 2 (mask bit 4). -/
def cxHeadC2 : Skb := { seq := 0, len := 100, path_mask := 4, is_data_fin := false }

/-- Peer subflow for the C7 counterexample: eligible for penalisation with
`snd_cwnd = 0` and `snd_ssthresh = 1`; the prior cwnd is below the
threshold, so `snd_ssthresh` keeps its value `1 < 2`. -/
def cxPeerC7 : Sub :=
  { sub0 with path_index := 2, srtt_us := 20000, snd_cwnd := 0, snd_ssthresh := 1 }

/-- Retransmit-queue head for the C7 counterexample and C7 witness. -/
def cxHeadC7 : Skb := { seq := 0, len := 100, path_mask := 4, is_data_fin := false }

/-- Peer subflow for the C7 witness: eligible for penalisation with
`snd_cwnd = 8 ≥ snd_ssthresh = 5`, so both floors apply. -/
def wPeerC7 : Sub := { sub0 with path_index := 2, srtt_us := 20000, snd_cwnd := 8 }

/-- A well-formed scheduler-ops entry used by the registry witnesses. -/
def wOps : SchedOps := { name := "default", get_subflow_set := true, next_segment_set := true }

/-- Reference form of the selector's running strict minimum: starting from
a current best `b` with value `m`, scan the list and replace the best on a
strictly smaller `srtt_us` (ties keep the earlier candidate). -/
def pickGoldAux : Option Sub → Nat → List Sub → Option Sub × Nat
  | b, m, [] => (b, m)
  | b, m, t :: rest =>
    if decide (t.srtt_us < m) then pickGoldAux (some t) t.srtt_us rest
    else pickGoldAux b m rest

/-- A subflow the selector actually compares in some iteration: it passes
the classifier and is available. -/
def selCandidate (skb : Option Skb) (sel : Sub → Bool) (z : Bool) (t : Sub) : Bool :=
  sel t && mptcp_is_available t skb z

/-- An unused (not-yet-tried) selector candidate. -/
def selCandidateUnused (skb : Option Skb) (sel : Sub → Bool) (z : Bool) (t : Sub) : Bool :=
  sel t && !(mptcp_dont_reinject_skb t skb) && mptcp_is_available t skb z

/-- All selector candidates of a subflow list, in iteration order. -/
def candA (subs : List Sub) (skb : Option Skb) (sel : Sub → Bool) (z : Bool) : List Sub :=
  subs.filter (selCandidate skb sel z)

/-- The unused selector candidates of a subflow list, in iteration order. -/
def candU (subs : List Sub) (skb : Option Skb) (sel : Sub → Bool) (z : Bool) : List Sub :=
  subs.filter (selCandidateUnused skb sel z)

/-- A subflow that sets the `found_unused_una` flag: unused, passing the
classifier, definitively available but temporarily unavailable. -/
def unaFlag (skb : Option Skb) (sel : Sub → Bool) (z : Bool) (t : Sub) : Bool :=
  sel t && !(mptcp_dont_reinject_skb t skb) &&
    !(mptcp_is_def_unavailable t) && mptcp_is_temp_unavailable t skb z

/-- Whether some subflow of the list sets `found_unused_una`. -/
def unaOf (subs : List Sub) (skb : Option Skb) (sel : Sub → Bool) (z : Bool) : Bool :=
  subs.any (unaFlag skb sel z)

/-- Declarative characterisation of the selector loop state after scanning
`L` from state `st`: if an unused candidate has been (or gets) seen, the
best is the running minimum over the unused candidates, otherwise over all
candidates; `found_unused_una` accumulates `unaFlag`. -/
def selLoopSpec (skb : Option Skb) (sel : Sub → Bool) (z : Bool)
    (st : SelSt) (L : List Sub) : SelSt :=
  if st.found_unused then
    let g := pickGoldAux st.bestsk st.min_srtt (candU L skb sel z)
    ⟨g.1, g.2, true, st.found_unused_una || unaOf L skb sel z⟩
  else if (candU L skb sel z).isEmpty then
    let g := pickGoldAux st.bestsk st.min_srtt (candA L skb sel z)
    ⟨g.1, g.2, false, st.found_unused_una || unaOf L skb sel z⟩
  else
    let g := pickGoldAux none u32max (candU L skb sel z)
    ⟨g.1, g.2, true, st.found_unused_una || unaOf L skb sel z⟩

/-- Short-circuit condition of the `do_retrans` scan: the peer stops the
scan (with `true` when its cwnd is at most 4, with `false` when the sender
is not at least four times faster). -/
def scanStops (s : Sub) (t : Sub) : Bool :=
  decide (t.snd_cwnd ≤ 4) || decide (t.srtt_us ≤ mask32 (4 * s.srtt_us))

/-- Declarative value of the `do_retrans` scan: restrict to the peers
already carrying the head; the first one satisfying a stop condition
decides (`true` exactly for the small-cwnd stop); if no peer stops the
scan, the result is `true` exactly when some carrying peer exists. -/
def scanSpec (s : Sub) (mask : Nat) (subs : List Sub) : Bool :=
  match (subs.filter (scanRelevant s mask)).find? (scanStops s) with
  | some t => decide (t.snd_cwnd ≤ 4)
  | none => !(subs.filter (scanRelevant s mask)).isEmpty

/-- Segment for the C4 counterexample: already carried by path index 1,
forcing the path-mask-clearing restart. -/
def cxSkbC4 : Skb := { seq := 0, len := 100, path_mask := 2, is_data_fin := false }

/-- Fresh segment for the C4 witness. -/
def wSkbC4 : Skb := { seq := 0, len := 100, path_mask := 0, is_data_fin := false }

/-- Second, slower subflow (path index 2) for the C5 witness. -/
def wSubB : Sub := { sub0 with path_index := 2, srtt_us := 20000 }

/-- Fresh segment for the C5 witness. -/
def wSkbC5 : Skb := { seq := 0, len := 100, path_mask := 0, is_data_fin := false }

/-- Peer for the C6 witness: carries the head (path bit 4) and is slow
enough (`80000 > 4 * 10000`) that reinjection is decided. -/
def wPeerC6 : Sub := { sub0 with path_index := 2, srtt_us := 80000 }

/-- Retransmit head for the C6 witness: carried only by path index 2. -/
def wHeadC6 : Skb := { seq := 0, len := 100, path_mask := 4, is_data_fin := false }

/-- Meta connection for the C8 witness: a single available subflow. -/
def wMetaC8 : Meta :=
  { subs := [sub0], reinject_queue := [], send_head := none, rtx_head := none,
    infinite_mapping_snd := false, send_infinite_mapping := false,
    sk_shutdown_rcv := false, dfin_path_index := 0, has_socket := false,
    nospace := false, wspace_low := false }

/-- Fresh segment for the C8 witness. -/
def wSkbC8 : Skb := { seq := 0, len := 100, path_mask := 0, is_data_fin := false }

/-- Subflow for the C3 counterexample: its advertised window is exhausted
(`wnd_end = write_seq = 1000`), but it is still selectable because
`next_segment` consults the scheduler with `zero_wnd_test = false`. -/
def cxSubC3 : Sub := { sub0 with wnd_end := 1000 }

/-- Segment for the C3 counterexample: 250 bytes, larger than the
subflow's 100-byte MSS. -/
def cxSkbC3 : Skb := { seq := 0, len := 250, path_mask := 0, is_data_fin := false }

/-- Meta connection for the C3 counterexample: the segment waits in the
reinject queue. -/
def cxMetaC3 : Meta :=
  { subs := [cxSubC3], reinject_queue := [cxSkbC3], send_head := none,
    rtx_head := none, infinite_mapping_snd := false,
    send_infinite_mapping := false, sk_shutdown_rcv := false,
    dfin_path_index := 0, has_socket := true, nospace := false,
    wspace_low := false }

/-- Segment for the C3 witness: 100 bytes, no larger than the MSS. -/
def wSkbC3 : Skb := { seq := 0, len := 100, path_mask := 0, is_data_fin := false }

/-- Meta connection for the C3 witness. -/
def wMetaC3 : Meta :=
  { subs := [sub0], reinject_queue := [wSkbC3], send_head := none,
    rtx_head := none, infinite_mapping_snd := false,
    send_infinite_mapping := false, sk_shutdown_rcv := false,
    dfin_path_index := 0, has_socket := true, nospace := false,
    wspace_low := false }

/-- C1, counterexample.  The claim says the per-segment zero-window clause
of `temp_unavailable` compares `K.seq + min(K.len, S.mss_now)` against
`S.wnd_end`.  At this input every other clause is false, the claimed
`K.seq`-based condition is true (5000 + 100 > 1500), yet the source
function returns `false`, because the code compares the subflow's
`write_seq` (1000 + 100 ≤ 1500), not the segment's sequence number. -/
theorem c1_counterexample :
    mptcp_is_temp_unavailable sub0 (some cxSkbC1) true = false ∧
    mptcp_is_temp_unavailable_specC1 sub0 (some cxSkbC1) true = true ∧
    tuLossCond sub0 = false ∧ tuOrderCond sub0 (some cxSkbC1) = false ∧
    tuCwndFull sub0 = false ∧ tuQueueFull sub0 = false ∧
    tuZeroWnd sub0 = false := by
  decide

/-- C1 (amended): with `zero_wnd_test` set, a present segment `K`, and all
earlier clauses false, the per-segment zero-window condition of
`temp_unavailable` holds exactly when
`S.write_seq + min(K.len, S.mss_now) > S.wnd_end` (wrap-aware `u32`
comparison): the subflow's `write_seq` is used, not `K.seq`. -/
theorem c1_zero_window_clause (s : Sub) (k : Skb)
    (h1 : tuLossCond s = false) (h2 : tuOrderCond s (some k) = false)
    (h3 : tuCwndFull s = false) (h4 : tuQueueFull s = false)
    (h5 : tuZeroWnd s = false) :
    mptcp_is_temp_unavailable s (some k) true =
      after32 (mask32 (s.write_seq + min k.len s.mss_now)) s.wnd_end := by
  simp [mptcp_is_temp_unavailable, tuSegWnd, h1, h2, h3, h4, h5]

/-- C1, witness for the amended theorem at a concrete input. -/
theorem c1_witness :
    tuLossCond sub0 = false ∧ tuOrderCond sub0 (some wSkbC1) = false ∧
    tuCwndFull sub0 = false ∧ tuQueueFull sub0 = false ∧
    tuZeroWnd sub0 = false ∧
    mptcp_is_temp_unavailable sub0 (some wSkbC1) true =
      after32 (mask32 (sub0.write_seq + min wSkbC1.len sub0.mss_now)) sub0.wnd_end :=
  ⟨by decide, by decide, by decide, by decide, by decide,
   c1_zero_window_clause sub0 wSkbC1 (by decide) (by decide) (by decide)
     (by decide) (by decide)⟩

/-- C2, counterexample.  With `penal = false` and free meta send-buffer
memory the claim says the cwnd/ssthresh penalisation is still performed.
At this input the peer `cxPeerC2` satisfies every penalisation condition
and the penalisation scan would change it (second conjunct), yet the call
leaves the subflow list untouched (first conjunct): the code jumps
straight to the reinjection decision, skipping penalisation entirely. -/
theorem c2_counterexample :
    (mptcp_rcv_buf_optimization sub0 [sub0, cxPeerC2] (some cxHeadC2)
       false true 1000 (fun _ => 0)).subs = [sub0, cxPeerC2] ∧
    rbufPenalCond sub0 cxHeadC2.path_mask cxPeerC2 = true ∧
    ¬ (rbufPenalize sub0 cxHeadC2.path_mask [sub0, cxPeerC2]).1 = [sub0, cxPeerC2] := by
  decide

/-- C2 (amended): when `penal` is false and the meta socket still has
send-buffer space, and likewise when the once-per-RTT rate limit fires,
control jumps to the reinjection decision (step 5), skipping the
penalisation of slower co-carriers entirely: the subflow states are
returned unchanged and the result is the retransmission phase evaluated on
the unchanged state. -/
theorem c2_penalisation_bypassed (s : Sub) (subs : List Sub) (h : Skb)
    (penal mem_free : Bool) (now : Nat) (u2j : Nat → Nat)
    (hby : (penal = false ∧ mem_free = true) ∨
           sub32 now s.last_rbuf_opti < u2j (s.srtt_us / 8)) :
    mptcp_rcv_buf_optimization s subs (some h) penal mem_free now u2j =
      ⟨rbufRetransPhase s subs h, s, subs⟩ := by
  unfold mptcp_rcv_buf_optimization rbufStateAtRetrans
  rcases hby with ⟨hp, hm⟩ | hrl
  · subst hp; subst hm; simp
  · have hd : decide (sub32 now s.last_rbuf_opti < u2j (s.srtt_us / 8)) = true :=
      decide_eq_true hrl
    by_cases hb : (!penal && mem_free) = true
    · simp [hb]
    · simp [hb, hd]

/-- C2, witness for the amended theorem at a concrete input (the
`¬penal ∧ memory-free` bypass). -/
theorem c2_witness :
    mptcp_rcv_buf_optimization sub0 [sub0, cxPeerC2] (some cxHeadC2)
        false true 1000 (fun _ => 0) =
      ⟨rbufRetransPhase sub0 [sub0, cxPeerC2] cxHeadC2, sub0, [sub0, cxPeerC2]⟩ :=
  c2_penalisation_bypassed sub0 [sub0, cxPeerC2] cxHeadC2 false true 1000
    (fun _ => 0) (Or.inl ⟨rfl, rfl⟩)

/-- C7, counterexample.  The claim concludes that after any call
`T.snd_ssthresh ≥ 2` for every penalised peer `T`.  Here `cxPeerC7`
(`snd_cwnd = 0`, `snd_ssthresh = 1`) is penalised — its cwnd is halved to
the floor 1 — but since the prior cwnd `0` is below `snd_ssthresh = 1`,
the ssthresh halving (and with it its floor of 2) is not applied, and the
peer leaves the call with `snd_ssthresh = 1 < 2`. -/
theorem c7_counterexample :
    rbufPenalCond sub0 cxHeadC7.path_mask cxPeerC7 = true ∧
    ((mptcp_rcv_buf_optimization sub0 [sub0, cxPeerC7] (some cxHeadC7)
        true false 1000 (fun _ => 0)).subs.getD 1 sub0).snd_cwnd = 1 ∧
    ((mptcp_rcv_buf_optimization sub0 [sub0, cxPeerC7] (some cxHeadC7)
        true false 1000 (fun _ => 0)).subs.getD 1 sub0).snd_ssthresh = 1 ∧
    ¬ 2 ≤ ((mptcp_rcv_buf_optimization sub0 [sub0, cxPeerC7] (some cxHeadC7)
        true false 1000 (fun _ => 0)).subs.getD 1 sub0).snd_ssthresh := by
  decide

/-- C7 (amended): when the penalisation phase runs (not bypassed and not
rate-limited), every penalised peer `T` has its cwnd halved with floor 1
(hence ends with `snd_cwnd ≥ 1`); its ssthresh is halved with floor 2 —
hence ends `≥ 2` — exactly when the pre-halving cwnd was `≥ T.snd_ssthresh`,
and is left unchanged otherwise; and the sender's `last_rbuf_opti` is set
to `now` whenever some peer was penalised. -/
theorem c7_penalisation_floors (s : Sub) (subs : List Sub) (h : Skb)
    (penal mem_free : Bool) (now : Nat) (u2j : Nat → Nat)
    (hnb : ¬ (!penal && mem_free) = true)
    (hnr : ¬ sub32 now s.last_rbuf_opti < u2j (s.srtt_us / 8)) :
    (∀ i t, subs.get? i = some t → rbufPenalCond s h.path_mask t = true →
       ∃ t', (mptcp_rcv_buf_optimization s subs (some h) penal mem_free now
                u2j).subs.get? i = some t' ∧
         t'.snd_cwnd = max (t.snd_cwnd / 2) 1 ∧ 1 ≤ t'.snd_cwnd ∧
         (t.snd_ssthresh ≤ t.snd_cwnd →
            t'.snd_ssthresh = max (t.snd_ssthresh / 2) 2 ∧ 2 ≤ t'.snd_ssthresh) ∧
         (t.snd_cwnd < t.snd_ssthresh → t'.snd_ssthresh = t.snd_ssthresh))
    ∧ ((∃ t ∈ subs, rbufPenalCond s h.path_mask t = true) →
       (mptcp_rcv_buf_optimization s subs (some h) penal mem_free now
          u2j).s.last_rbuf_opti = now) := by
  have hst : rbufStateAtRetrans s subs h penal mem_free now u2j =
      rbufPenalPhase s subs h.path_mask now := by
    unfold rbufStateAtRetrans
    have hd : decide (sub32 now s.last_rbuf_opti < u2j (s.srtt_us / 8)) = false :=
      decide_eq_false hnr
    simp [hnb, hd]
  have hred : mptcp_rcv_buf_optimization s subs (some h) penal mem_free now u2j =
      ⟨rbufRetransPhase (rbufPenalPhase s subs h.path_mask now).s
         (rbufPenalPhase s subs h.path_mask now).subs h,
       (rbufPenalPhase s subs h.path_mask now).s,
       (rbufPenalPhase s subs h.path_mask now).subs⟩ := by
    show (⟨rbufRetransPhase (rbufStateAtRetrans s subs h penal mem_free now u2j).s
            (rbufStateAtRetrans s subs h penal mem_free now u2j).subs h,
          (rbufStateAtRetrans s subs h penal mem_free now u2j).s,
          (rbufStateAtRetrans s subs h penal mem_free now u2j).subs⟩ : RbufOut) = _
    rw [hst]
  constructor
  · intro i t hget hcond
    have hpi : ¬ t.path_index = s.path_index := by
      intro hpe
      have := hcond
      unfold rbufPenalCond scanRelevant at this
      rw [hpe] at this
      simp at this
    refine ⟨(if decide ((rbufPenalApply t).path_index = s.path_index) then
              (if (rbufPenalize s h.path_mask subs).2 then
                 { s with last_rbuf_opti := now } else s)
            else rbufPenalApply t), ?_, ?_⟩
    · rw [hred]
      unfold rbufPenalPhase rbufPenalize
      simp only [List.get?_map, hget, Option.map_some', hcond, if_pos rfl, if_true]
    · have happ : (rbufPenalApply t).path_index = t.path_index ∧
          (rbufPenalApply t).snd_cwnd = max (t.snd_cwnd / 2) 1 ∧
          (rbufPenalApply t).snd_ssthresh =
            (if t.snd_ssthresh ≤ t.snd_cwnd then max (t.snd_ssthresh / 2) 2
             else t.snd_ssthresh) := by
        unfold rbufPenalApply
        by_cases hc : t.snd_ssthresh ≤ t.snd_cwnd
        · simp [hc]
        · simp [hc]
      have hrepl : decide ((rbufPenalApply t).path_index = s.path_index) = false := by
        rw [happ.1]; exact decide_eq_false hpi
      rw [hrepl]
      simp only [Bool.false_eq_true, if_false]
      refine ⟨happ.2.1, ?_, ?_, ?_⟩
      · rw [happ.2.1]; exact Nat.le_max_right _ 1
      · intro hle
        rw [happ.2.2, if_pos hle]
        exact ⟨rfl, Nat.le_max_right _ 2⟩
      · intro hlt
        rw [happ.2.2, if_neg (Nat.not_le_of_lt hlt)]
  · intro hex
    rw [hred]
    unfold rbufPenalPhase
    have hany : (rbufPenalize s h.path_mask subs).2 = true := by
      unfold rbufPenalize
      exact List.any_eq_true.mpr
        (by rcases hex with ⟨t, ht, hc⟩; exact ⟨t, ht, hc⟩)
    simp [hany]

/-- C7, witness for the amended theorem at a concrete input where both
halvings apply (`snd_cwnd = 8 ≥ snd_ssthresh = 5`). -/
theorem c7_witness :
    (∃ t', (mptcp_rcv_buf_optimization sub0 [sub0, wPeerC7] (some cxHeadC7)
              true false 1000 (fun _ => 0)).subs.get? 1 = some t' ∧
       t'.snd_cwnd = max (wPeerC7.snd_cwnd / 2) 1 ∧ 1 ≤ t'.snd_cwnd ∧
       (wPeerC7.snd_ssthresh ≤ wPeerC7.snd_cwnd →
          t'.snd_ssthresh = max (wPeerC7.snd_ssthresh / 2) 2 ∧
          2 ≤ t'.snd_ssthresh) ∧
       (wPeerC7.snd_cwnd < wPeerC7.snd_ssthresh →
          t'.snd_ssthresh = wPeerC7.snd_ssthresh))
    ∧ (mptcp_rcv_buf_optimization sub0 [sub0, wPeerC7] (some cxHeadC7)
         true false 1000 (fun _ => 0)).s.last_rbuf_opti = 1000 :=
  ⟨(c7_penalisation_floors sub0 [sub0, wPeerC7] cxHeadC7 true false 1000
      (fun _ => 0) (by decide) (by decide)).1 1 wPeerC7 rfl (by decide),
   (c7_penalisation_floors sub0 [sub0, wPeerC7] cxHeadC7 true false 1000
      (fun _ => 0) (by decide) (by decide)).2
     ⟨wPeerC7, by decide, by decide⟩⟩

/-- C9: `register(ops)` fails with `-EINVAL` when either required function
pointer is missing, leaving the registry untouched; fails with `-EEXIST`
when the name is already present, leaving the registry unchanged; and
otherwise appends the new entry at the tail of the list. -/
theorem c9_register (reg : List SchedOps) (sched : SchedOps) :
    ((sched.get_subflow_set = false ∨ sched.next_segment_set = false) →
       mptcp_register_scheduler reg sched = (eINVAL, reg))
    ∧ (sched.get_subflow_set = true → sched.next_segment_set = true →
       (mptcp_sched_find reg sched.name).isSome = true →
       mptcp_register_scheduler reg sched = (eEXIST, reg))
    ∧ (sched.get_subflow_set = true → sched.next_segment_set = true →
       mptcp_sched_find reg sched.name = none →
       mptcp_register_scheduler reg sched = (0, reg ++ [sched])) := by
  refine ⟨?_, ?_, ?_⟩
  · intro hmiss
    unfold mptcp_register_scheduler
    rcases hmiss with hg | hn
    · rw [hg]; simp
    · rw [hn]; simp
  · intro hg hn hfound
    unfold mptcp_register_scheduler
    rw [hg, hn, hfound]
    simp
  · intro hg hn hnone
    unfold mptcp_register_scheduler
    rw [hg, hn, hnone]
    simp

/-- C9, witness: registering a well-formed entry into an empty registry
appends it at the tail. -/
theorem c9_witness :
    mptcp_register_scheduler [] wOps = (0, [] ++ [wOps]) :=
  (c9_register [] wOps).2.2 rfl rfl rfl

/-- C10: setting the per-connection scheduler returns `-ENOENT` whenever
the name matches no registered scheduler even after the autoload attempt,
regardless of the caller's privileges; it returns `-EPERM` exactly when the
named scheduler exists (after autoload) and the caller lacks the
administrative capability; and the connection's stored scheduler name and
setsockopt flag are modified only on success. -/
theorem c10_set_scheduler (reg regAfter : List SchedOps) (cap ns_cap : Bool)
    (sk : ConnSock) (name : String) :
    ((mptcp_sched_find reg name = none → mptcp_sched_find regAfter name = none →
        mptcp_set_scheduler reg regAfter cap ns_cap sk name = (eNOENT, sk)))
    ∧ ((mptcp_set_scheduler reg regAfter cap ns_cap sk name).1 = ePERM ↔
        (mptcp_sched_find_autoload reg regAfter cap name).isSome = true ∧
          ns_cap = false)
    ∧ (¬ (mptcp_set_scheduler reg regAfter cap ns_cap sk name).1 = 0 →
        (mptcp_set_scheduler reg regAfter cap ns_cap sk name).2 = sk)
    ∧ ((mptcp_set_scheduler reg regAfter cap ns_cap sk name).1 = 0 →
        (mptcp_set_scheduler reg regAfter cap ns_cap sk name).2 =
          { sk with mptcp_sched_name := name, mptcp_sched_setsockopt := true }) := by
  refine ⟨?_, ?_, ?_, ?_⟩
  · intro h1 h2
    unfold mptcp_set_scheduler mptcp_sched_find_autoload
    rw [h1]
    cases cap <;> simp [h2]
  · unfold mptcp_set_scheduler
    cases hfind : mptcp_sched_find_autoload reg regAfter cap name with
    | none => simp [eNOENT, ePERM]
    | some e =>
      cases ns_cap with
      | false => simp
      | true => simp [ePERM]
  · unfold mptcp_set_scheduler
    cases hfind : mptcp_sched_find_autoload reg regAfter cap name with
    | none => simp
    | some e =>
      cases ns_cap with
      | false => simp
      | true => simp
  · unfold mptcp_set_scheduler
    cases hfind : mptcp_sched_find_autoload reg regAfter cap name with
    | none => simp [eNOENT]
    | some e =>
      cases ns_cap with
      | false => simp [ePERM]
      | true => simp

/-- C10, witness: with empty registries (no scheduler exists even after
the autoload attempt) and full privileges, the call fails `-ENOENT` and
leaves the connection state unchanged. -/
theorem c10_witness :
    mptcp_set_scheduler [] [] true true ⟨"default", false⟩ "nosuch" =
      (eNOENT, ⟨"default", false⟩) :=
  (c10_set_scheduler [] [] true true ⟨"default", false⟩ "nosuch").1 rfl rfl

/-- The `do_retrans` loop started with accumulator `acc` is decided by the
first relevant peer satisfying a stop condition; if none stops the scan,
the result is `acc` or-ed with the existence of a relevant peer. -/
theorem doRetransLoop_eq (s : Sub) (mask : Nat) :
    ∀ (L : List Sub) (acc : Bool),
      doRetransLoop s mask acc L =
        (match (L.filter (scanRelevant s mask)).find? (scanStops s) with
         | some t => decide (t.snd_cwnd ≤ 4)
         | none => acc || !(L.filter (scanRelevant s mask)).isEmpty) := by
  intro L
  induction L with
  | nil => intro acc; simp [doRetransLoop]
  | cons t rest ih =>
    intro acc
    by_cases hrel : scanRelevant s mask t = true
    · by_cases hc4 : decide (t.snd_cwnd ≤ 4) = true
      · have hstop : scanStops s t = true := by
          unfold scanStops; rw [hc4]; rfl
        simp only [doRetransLoop, hrel, if_true, hc4,
          List.filter_cons_of_pos hrel, List.find?_cons_of_pos _ hstop]
      · rw [Bool.not_eq_true] at hc4
        by_cases hsr : decide (t.srtt_us ≤ mask32 (4 * s.srtt_us)) = true
        · have hstop : scanStops s t = true := by
            unfold scanStops; rw [hsr]; simp
          simp only [doRetransLoop, hrel, if_true, hc4, Bool.false_eq_true,
            if_false, hsr, List.filter_cons_of_pos hrel,
            List.find?_cons_of_pos _ hstop]
        · rw [Bool.not_eq_true] at hsr
          have hstop : scanStops s t = false := by
            unfold scanStops; rw [hc4, hsr]; rfl
          have hl : doRetransLoop s mask acc (t :: rest) =
              doRetransLoop s mask true rest := by
            simp only [doRetransLoop, hrel, if_true, hc4, Bool.false_eq_true,
              if_false, hsr]
          rw [hl, ih true, List.filter_cons_of_pos hrel,
            List.find?_cons_of_neg _ (by rw [hstop]; simp)]
          cases hf : (rest.filter (scanRelevant s mask)).find? (scanStops s) with
          | none => simp
          | some u => rfl
    · rw [Bool.not_eq_true] at hrel
      have hl : doRetransLoop s mask acc (t :: rest) =
          doRetransLoop s mask acc rest := by
        simp only [doRetransLoop, hrel, Bool.false_eq_true, if_false]
      rw [hl, ih acc, List.filter_cons_of_neg (by rw [hrel]; simp)]

/-- The `do_retrans` loop from its initial accumulator `false` computes
exactly `scanSpec`. -/
theorem doRetransLoop_false (s : Sub) (mask : Nat) (L : List Sub) :
    doRetransLoop s mask false L = scanSpec s mask L := by
  rw [doRetransLoop_eq]
  unfold scanSpec
  cases hf : (L.filter (scanRelevant s mask)).find? (scanStops s) with
  | none => simp
  | some u => rfl

/-- The penalisation phase only touches `last_rbuf_opti` on the sender, so
the sender's path index is preserved. -/
theorem rbufStateAtRetrans_path_index (s : Sub) (subs : List Sub) (h : Skb)
    (penal mem_free : Bool) (now : Nat) (u2j : Nat → Nat) :
    (rbufStateAtRetrans s subs h penal mem_free now u2j).s.path_index =
      s.path_index := by
  by_cases h1 : (!penal && mem_free) = true
  · simp [rbufStateAtRetrans, h1]
  · by_cases h2 : decide (sub32 now s.last_rbuf_opti < u2j (s.srtt_us / 8)) = true
    · simp [rbufStateAtRetrans, h1, h2]
    · simp only [rbufStateAtRetrans, h1, Bool.false_eq_true, if_false, h2,
        rbufPenalPhase]
      by_cases h3 : (rbufPenalize s h.path_mask subs).2 = true <;> simp [h3]

/-- C6: when the retransmit head `H` has not been sent on `S` (its path bit
is clear), `mptcp_rcv_buf_optimization` returns `H` exactly when the
`do_retrans` scan over the peers already carrying `H` — first relevant peer
with `cwnd ≤ 4` decides true and stops; otherwise a first relevant peer
with `4·S.srtt_us ≥ T.srtt_us` decides false and stops; otherwise the scan
continues with `do_retrans = true` — ends true, and `S` is available for
`H` with `zero_wnd_test = false`.  The scan runs on the state reached at
the `retrans:` label (after any penalisation). -/
theorem c6_reinjection_decision (s : Sub) (subs : List Sub) (h : Skb)
    (penal mem_free : Bool) (now : Nat) (u2j : Nat → Nat)
    (hmask : Nat.land h.path_mask (mptcp_pi_to_flag s.path_index) = 0) :
    ((mptcp_rcv_buf_optimization s subs (some h) penal mem_free now u2j).ret
        = some h ↔
      scanSpec (rbufStateAtRetrans s subs h penal mem_free now u2j).s
          h.path_mask
          (rbufStateAtRetrans s subs h penal mem_free now u2j).subs = true ∧
        mptcp_is_available
          (rbufStateAtRetrans s subs h penal mem_free now u2j).s
          (some h) false = true) := by
  have hred : (mptcp_rcv_buf_optimization s subs (some h) penal mem_free now
      u2j).ret =
      rbufRetransPhase (rbufStateAtRetrans s subs h penal mem_free now u2j).s
        (rbufStateAtRetrans s subs h penal mem_free now u2j).subs h := rfl
  rw [hred]
  unfold rbufRetransPhase
  have hm : decide (Nat.land h.path_mask
      (mptcp_pi_to_flag (rbufStateAtRetrans s subs h penal mem_free now
        u2j).s.path_index) = 0) = true := by
    rw [rbufStateAtRetrans_path_index]
    exact decide_eq_true hmask
  rw [doRetransLoop_false]
  simp only [hm, if_true]
  by_cases h1 : scanSpec (rbufStateAtRetrans s subs h penal mem_free now
      u2j).s h.path_mask (rbufStateAtRetrans s subs h penal mem_free now
      u2j).subs = true
  · by_cases h2 : mptcp_is_available (rbufStateAtRetrans s subs h penal
        mem_free now u2j).s (some h) false = true
    · simp [h1, h2]
    · simp [h1, h2]
  · simp [h1]

/-- C6, witness: sending on `sub0` (10 ms srtt) while only the slow peer
(80 ms srtt, cwnd above 4 after penalisation) carries the head, the scan
decides reinjection and the head is returned. -/
theorem c6_witness :
    (mptcp_rcv_buf_optimization sub0 [sub0, wPeerC6] (some wHeadC6)
       true false 1000 (fun _ => 0)).ret = some wHeadC6 :=
  (c6_reinjection_decision sub0 [sub0, wPeerC6] wHeadC6 true false 1000
     (fun _ => 0) (by decide)).mpr ⟨by decide, by decide⟩

/-- C4, counterexample.  The claim bounds the visits at two per subflow
(one active pass, one backup pass).  With a single active subflow whose
path bit is already set in the segment's mask, the first active pass finds
only a used candidate (`force = false`), the backup pass finds nothing, so
the path mask is cleared and the selector restarts: the subflow is scanned
in three selector passes (the restart happens, and is counted, once). -/
theorem c4_counterexample :
    ((gasCoreInstr [sub0] (some cxSkbC4) false).2.1).count sub0 = 3 ∧
    ¬ ((gasCoreInstr [sub0] (some cxSkbC4) false).2.1).count sub0 ≤ 2 ∧
    (gasCoreInstr [sub0] (some cxSkbC4) false).2.2 = 1 := by
  decide

/-- C4 (amended): every call performs the path-mask-clearing restart at
most once and terminates — any fuel bound of at least two rounds yields
the call's result — and each selector pass scans each subflow exactly
once, with at most four passes per call (active and backup, in at most two
rounds), so each subflow is visited at most four times per call (not
twice: after the restart the active and backup passes run again). -/
theorem c4_selector_bounds (subs : List Sub) (skb : Option Skb) (z : Bool) :
    (gasCoreInstr subs skb z).1 = gasCore subs skb z
    ∧ (gasCoreInstr subs skb z).2.2 ≤ 1
    ∧ (∀ s : Sub, ((gasCoreInstr subs skb z).2.1).count s ≤ 4 * subs.count s)
    ∧ (∀ fuel, 2 ≤ fuel →
         gasFuel fuel subs skb z false = some (gasCore subs skb z)) := by
  by_cases h1 : (get_subflow_from_selectors subs skb subflow_is_active z).force = true
  · refine ⟨by simp [gasCoreInstr, gasCore, h1], by simp [gasCoreInstr, h1], ?_, ?_⟩
    · intro s
      simp only [gasCoreInstr, h1, if_true]
      omega
    · intro fuel hf
      obtain ⟨n, rfl⟩ : ∃ n, fuel = n + 2 := ⟨fuel - 2, by omega⟩
      simp [gasFuel, gasCore, h1]
  · by_cases h2 : (!(get_subflow_from_selectors subs skb subflow_is_backup z).force
        && skb.isSome) = true
    · by_cases h3 : (get_subflow_from_selectors subs (skb.map skbClearMask)
          subflow_is_active z).force = true
      · refine ⟨by simp [gasCoreInstr, gasCore, h1, h2, h3],
          by simp [gasCoreInstr, h1, h2, h3], ?_, ?_⟩
        · intro s
          simp only [gasCoreInstr, h1, h2, h3, if_true, if_false,
            Bool.false_eq_true]
          rw [List.count_append, List.count_append]
          omega
        · intro fuel hf
          obtain ⟨n, rfl⟩ : ∃ n, fuel = n + 2 := ⟨fuel - 2, by omega⟩
          simp [gasFuel, gasCore, h1, h2, h3]
      · refine ⟨by simp [gasCoreInstr, gasCore, h1, h2, h3],
          by simp [gasCoreInstr, h1, h2, h3], ?_, ?_⟩
        · intro s
          simp only [gasCoreInstr, h1, h2, h3, if_true, if_false,
            Bool.false_eq_true]
          rw [List.count_append, List.count_append, List.count_append]
          omega
        · intro fuel hf
          obtain ⟨n, rfl⟩ : ∃ n, fuel = n + 2 := ⟨fuel - 2, by omega⟩
          simp [gasFuel, gasCore, h1, h2, h3]
    · refine ⟨by simp [gasCoreInstr, gasCore, h1, h2],
        by simp [gasCoreInstr, h1, h2], ?_, ?_⟩
      · intro s
        simp only [gasCoreInstr, h1, h2, if_true, if_false,
          Bool.false_eq_true]
        rw [List.count_append]
        omega
      · intro fuel hf
        obtain ⟨n, rfl⟩ : ∃ n, fuel = n + 2 := ⟨fuel - 2, by omega⟩
        simp [gasFuel, gasCore, h1, h2]

/-- C4, witness for the amended theorem at a concrete input (fuel 2
suffices; the single subflow is visited at most four times). -/
theorem c4_witness :
    gasFuel 2 [sub0] (some wSkbC4) false false =
      some (gasCore [sub0] (some wSkbC4) false) ∧
    ((gasCoreInstr [sub0] (some wSkbC4) false).2.1).count sub0 ≤
      4 * ([sub0].count sub0) :=
  ⟨(c4_selector_bounds [sub0] (some wSkbC4) false).2.2.2 2 (by decide),
   (c4_selector_bounds [sub0] (some wSkbC4) false).2.2.1 sub0⟩

/-- Characterisation of the running strict minimum: when it settles on a
subflow `S`, either nothing beat the incoming best `b`, or `S` is the
first list element attaining the minimal `srtt_us` (strictly below the
incoming bound `m`). -/
theorem pickGoldAux_spec (L : List Sub) :
    ∀ (b : Option Sub) (m : Nat) (S : Sub),
      (pickGoldAux b m L).1 = some S →
      (b = some S ∧ (pickGoldAux b m L).2 = m ∧
         L.find? (fun t => decide (t.srtt_us < m)) = none)
      ∨ (S ∈ L ∧ (pickGoldAux b m L).2 = S.srtt_us ∧ S.srtt_us < m ∧
         (∀ T ∈ L, S.srtt_us ≤ T.srtt_us) ∧
         L.find? (fun t => decide (t.srtt_us ≤ S.srtt_us)) = some S) := by
  induction L with
  | nil =>
    intro b m S hb
    exact Or.inl ⟨hb, rfl, rfl⟩
  | cons t rest ih =>
    intro b m S hb
    by_cases hlt : t.srtt_us < m
    · have hstep : pickGoldAux b m (t :: rest) =
          pickGoldAux (some t) t.srtt_us rest := by
        simp [pickGoldAux, hlt]
      rw [hstep] at hb
      rcases ih (some t) t.srtt_us S hb with
        ⟨hbs, hm2, hnone⟩ | ⟨hmem, hm2, hlt2, hmin, hfind⟩
      · have hts : t = S := Option.some.inj hbs
        subst hts
        refine Or.inr ⟨List.mem_cons_self t rest, ?_, hlt, ?_, ?_⟩
        · rw [hstep]; exact hm2
        · intro T hT
          rcases List.mem_cons.mp hT with heq | hTr
          · rw [heq]
          · have hn := List.find?_eq_none.mp hnone T hTr
            have hnl : ¬ T.srtt_us < t.srtt_us := by
              intro hcon; exact hn (decide_eq_true hcon)
            omega
        · exact List.find?_cons_of_pos rest (decide_eq_true (Nat.le_refl _))
      · refine Or.inr ⟨List.mem_cons_of_mem t hmem, ?_, ?_, ?_, ?_⟩
        · rw [hstep]; exact hm2
        · omega
        · intro T hT
          rcases List.mem_cons.mp hT with heq | hTr
          · rw [heq]; omega
          · exact hmin T hTr
        · rw [List.find?_cons_of_neg rest ?hng, hfind]
          case hng =>
            simp only [decide_eq_true_eq]
            omega
    · have hstep : pickGoldAux b m (t :: rest) = pickGoldAux b m rest := by
        simp [pickGoldAux, hlt]
      rw [hstep] at hb
      rcases ih b m S hb with
        ⟨hbs, hm2, hnone⟩ | ⟨hmem, hm2, hlt2, hmin, hfind⟩
      · refine Or.inl ⟨hbs, by rw [hstep]; exact hm2, ?_⟩
        rw [List.find?_cons_of_neg rest ?hng2, hnone]
        case hng2 =>
          simp only [decide_eq_true_eq]
          omega
      · refine Or.inr ⟨List.mem_cons_of_mem t hmem,
          by rw [hstep]; exact hm2, hlt2, ?_, ?_⟩
        · intro T hT
          rcases List.mem_cons.mp hT with heq | hTr
          · rw [heq]; omega
          · exact hmin T hTr
        · rw [List.find?_cons_of_neg rest ?hng3, hfind]
          case hng3 =>
            simp only [decide_eq_true_eq]
            omega

/-- The selector loop computes its declarative characterisation
`selLoopSpec` from any starting state. -/
theorem selLoop_eq_spec (skb : Option Skb) (sel : Sub → Bool) (z : Bool) :
    ∀ (L : List Sub) (st : SelSt),
      selLoop skb sel z st L = selLoopSpec skb sel z st L := by
  intro L
  induction L with
  | nil =>
    intro st
    cases st with
    | mk b m fu fa =>
      cases fu <;>
        simp [selLoop, selLoopSpec, candU, candA, unaOf, pickGoldAux]
  | cons t rest ih =>
    intro st
    cases st with
    | mk b m fu fa =>
      have hstep : selLoop skb sel z ⟨b, m, fu, fa⟩ (t :: rest) =
          selLoop skb sel z (selStep skb sel z ⟨b, m, fu, fa⟩ t) rest := rfl
      rw [hstep, ih]
      by_cases hsel : sel t = true
      · by_cases hdef : mptcp_is_def_unavailable t = true
        · -- definitively unavailable: skipped, no flag, not a candidate
          have hu : unaFlag skb sel z t = false := by
            simp [unaFlag, hdef]
          have hav : mptcp_is_available t skb z = false := by
            simp [mptcp_is_available, hdef]
          have hstept : selStep skb sel z ⟨b, m, fu, fa⟩ t = ⟨b, m, fu, fa⟩ := by
            simp [selStep, hsel, hdef]
          rw [hstept]
          simp [selLoopSpec, candU, candA, unaOf, selCandidate,
            selCandidateUnused, List.filter_cons, List.any_cons, hsel, hav, hu]
        · by_cases htmp : mptcp_is_temp_unavailable t skb z = true
          · -- temporarily unavailable: not a candidate; may set the una flag
            have hav : mptcp_is_available t skb z = false := by
              simp [mptcp_is_available, htmp]
            by_cases hdr : mptcp_dont_reinject_skb t skb = true
            · -- used: skipped silently
              have hu : unaFlag skb sel z t = false := by
                simp [unaFlag, hdr]
              have hstept : selStep skb sel z ⟨b, m, fu, fa⟩ t =
                  ⟨b, m, fu, fa⟩ := by
                simp [selStep, hsel, hdef, htmp, hdr]
              rw [hstept]
              simp [selLoopSpec, candU, candA, unaOf, selCandidate,
                selCandidateUnused, List.filter_cons, List.any_cons, hsel,
                hav, hu]
            · -- unused: found_unused_una is set
              have hu : unaFlag skb sel z t = true := by
                simp [unaFlag, hsel, hdr, hdef, htmp]
              have hstept : selStep skb sel z ⟨b, m, fu, fa⟩ t =
                  ⟨b, m, fu, true⟩ := by
                simp [selStep, hsel, hdef, htmp, hdr]
              rw [hstept]
              simp [selLoopSpec, candU, candA, unaOf, selCandidate,
                selCandidateUnused, List.filter_cons, List.any_cons, hsel,
                hav, hu]
          · -- available
            have hav : mptcp_is_available t skb z = true := by
              simp [mptcp_is_available, hdef, htmp]
            by_cases hdr : mptcp_dont_reinject_skb t skb = true
            · -- used available candidate
              have hu : unaFlag skb sel z t = false := by
                simp [unaFlag, hdr]
              have hcu : selCandidateUnused skb sel z t = false := by
                simp [selCandidateUnused, hdr]
              have hca : selCandidate skb sel z t = true := by
                simp [selCandidate, hsel, hav]
              cases fu with
              | true =>
                have hstept : selStep skb sel z ⟨b, m, true, fa⟩ t =
                    ⟨b, m, true, fa⟩ := by
                  simp [selStep, hsel, hdef, htmp, hdr]
                rw [hstept]
                simp [selLoopSpec, candU, candA, unaOf, List.filter_cons,
                  List.any_cons, hcu, hca, hu]
              | false =>
                have hstept : selStep skb sel z ⟨b, m, false, fa⟩ t =
                    (if decide (t.srtt_us < m) then ⟨some t, t.srtt_us, false, fa⟩
                     else ⟨b, m, false, fa⟩) := by
                  simp [selStep, hsel, hdef, htmp, hdr]
                rw [hstept]
                by_cases hemp : (candU rest skb sel z).isEmpty = true
                · by_cases hcmp : decide (t.srtt_us < m) = true
                  · simp [selLoopSpec, candU, candA, unaOf, List.filter_cons,
                      List.any_cons, hcu, hca, hu, hemp, hcmp, pickGoldAux]
                  · simp [selLoopSpec, candU, candA, unaOf, List.filter_cons,
                      List.any_cons, hcu, hca, hu, hemp, hcmp, pickGoldAux]
                · by_cases hcmp : decide (t.srtt_us < m) = true
                  · simp [selLoopSpec, candU, candA, unaOf, List.filter_cons,
                      List.any_cons, hcu, hca, hu, hemp, hcmp, pickGoldAux]
                  · simp [selLoopSpec, candU, candA, unaOf, List.filter_cons,
                      List.any_cons, hcu, hca, hu, hemp, hcmp, pickGoldAux]
            · -- unused available candidate
              have hu : unaFlag skb sel z t = false := by
                simp [unaFlag, htmp]
              have hcu : selCandidateUnused skb sel z t = true := by
                simp [selCandidateUnused, hsel, hdr, hav]
              have hca : selCandidate skb sel z t = true := by
                simp [selCandidate, hsel, hav]
              cases fu with
              | true =>
                have hstept : selStep skb sel z ⟨b, m, true, fa⟩ t =
                    (if decide (t.srtt_us < m) then ⟨some t, t.srtt_us, true, fa⟩
                     else ⟨b, m, true, fa⟩) := by
                  simp [selStep, hsel, hdef, htmp, hdr]
                rw [hstept]
                by_cases hcmp : decide (t.srtt_us < m) = true
                · simp [selLoopSpec, candU, candA, unaOf, List.filter_cons,
                    List.any_cons, hcu, hca, hu, hcmp, pickGoldAux]
                · simp [selLoopSpec, candU, candA, unaOf, List.filter_cons,
                    List.any_cons, hcu, hca, hu, hcmp, pickGoldAux]
              | false =>
                have hstept : selStep skb sel z ⟨b, m, false, fa⟩ t =
                    (if decide (t.srtt_us < u32max) then
                       ⟨some t, t.srtt_us, true, fa⟩
                     else ⟨none, u32max, true, fa⟩) := by
                  simp [selStep, hsel, hdef, htmp, hdr]
                rw [hstept]
                by_cases hcmp : decide (t.srtt_us < u32max) = true
                · simp [selLoopSpec, candU, candA, unaOf, List.filter_cons,
                    List.any_cons, hcu, hca, hu, hcmp, pickGoldAux]
                · simp [selLoopSpec, candU, candA, unaOf, List.filter_cons,
                    List.any_cons, hcu, hca, hu, hcmp, pickGoldAux]
      · -- classifier rejects t: skipped, not a candidate, no flag
        have hstept : selStep skb sel z ⟨b, m, fu, fa⟩ t = ⟨b, m, fu, fa⟩ := by
          simp [selStep, hsel]
        have hu : unaFlag skb sel z t = false := by
          simp [unaFlag, hsel]
        have hcu : selCandidateUnused skb sel z t = false := by
          simp [selCandidateUnused, hsel]
        have hca : selCandidate skb sel z t = false := by
          simp [selCandidate, hsel]
        rw [hstept]
        simp [selLoopSpec, candU, candA, unaOf, List.filter_cons,
          List.any_cons, hcu, hca, hu]

/-- The subflow returned by `get_subflow_from_selectors` is the final
`bestsk` of the scan. -/
theorem pick_sk_bestsk (subs : List Sub) (skb : Option Skb)
    (sel : Sub → Bool) (z : Bool) :
    (get_subflow_from_selectors subs skb sel z).sk =
      (selLoop skb sel z selInit subs).bestsk := by
  unfold get_subflow_from_selectors
  cases h : (selLoop skb sel z selInit subs).bestsk <;> simp [h]

/-- When the selector returns a subflow, it is the first minimal-`srtt_us`
element of the unused candidates when some unused candidate exists, and of
all candidates otherwise. -/
theorem pick_sk_some (subs : List Sub) (skb : Option Skb)
    (sel : Sub → Bool) (z : Bool) (S : Sub)
    (h : (get_subflow_from_selectors subs skb sel z).sk = some S) :
    (¬ (candU subs skb sel z).isEmpty = true ∧ S ∈ candU subs skb sel z ∧
       (∀ T ∈ candU subs skb sel z, S.srtt_us ≤ T.srtt_us) ∧
       (candU subs skb sel z).find?
         (fun t => decide (t.srtt_us ≤ S.srtt_us)) = some S)
    ∨ ((candU subs skb sel z).isEmpty = true ∧ S ∈ candA subs skb sel z ∧
       (∀ T ∈ candA subs skb sel z, S.srtt_us ≤ T.srtt_us) ∧
       (candA subs skb sel z).find?
         (fun t => decide (t.srtt_us ≤ S.srtt_us)) = some S) := by
  rw [pick_sk_bestsk, selLoop_eq_spec] at h
  unfold selLoopSpec selInit at h
  by_cases hemp : (candU subs skb sel z).isEmpty = true
  · right
    simp only [hemp, if_true, Bool.false_eq_true, if_false] at h
    rcases pickGoldAux_spec (candA subs skb sel z) none u32max S h with
      ⟨hbs, _, _⟩ | ⟨hmem, _, _, hmin, hfind⟩
    · exact absurd hbs (by simp)
    · exact ⟨hemp, hmem, hmin, hfind⟩
  · left
    simp only [hemp, Bool.false_eq_true, if_false] at h
    rcases pickGoldAux_spec (candU subs skb sel z) none u32max S h with
      ⟨hbs, _, _⟩ | ⟨hmem, _, _, hmin, hfind⟩
    · exact absurd hbs (by simp)
    · exact ⟨hemp, hmem, hmin, hfind⟩

/-- A returned subflow is a member of the scanned list, passes the
classifier and is available. -/
theorem pick_sk_candidate (subs : List Sub) (skb : Option Skb)
    (sel : Sub → Bool) (z : Bool) (S : Sub)
    (h : (get_subflow_from_selectors subs skb sel z).sk = some S) :
    S ∈ subs ∧ sel S = true ∧ mptcp_is_available S skb z = true := by
  rcases pick_sk_some subs skb sel z S h with
    ⟨_, hmem, _, _⟩ | ⟨_, hmem, _, _⟩
  · have hm := List.mem_filter.mp hmem
    have hp := hm.2
    simp only [selCandidateUnused, Bool.and_eq_true] at hp
    exact ⟨hm.1, hp.1.1, hp.2⟩
  · have hm := List.mem_filter.mp hmem
    have hp := hm.2
    simp only [selCandidate, Bool.and_eq_true] at hp
    exact ⟨hm.1, hp.1, hp.2⟩

/-- An available subflow is not definitively unavailable. -/
theorem available_not_def (s : Sub) (skb : Option Skb) (z : Bool)
    (h : mptcp_is_available s skb z = true) :
    mptcp_is_def_unavailable s = false := by
  simp only [mptcp_is_available, Bool.and_eq_true, Bool.not_eq_true'] at h
  exact h.1

/-- C8: no entry point of the scheduler ever returns a definitively
unavailable subflow: neither the data-fin same-path early return of
`get_available_subflow` nor any of its selector passes. -/
theorem c8_def_unavailable_never_returned (m : Meta) (skb : Option Skb)
    (z : Bool) (S : Sub)
    (h : get_available_subflow m skb z = some S) :
    mptcp_is_def_unavailable S = false := by
  unfold get_available_subflow at h
  cases hX : dfinPick m skb z with
  | some s =>
    rw [hX] at h
    have hS : s = S := Option.some.inj h
    -- the data-fin scan only returns available subflows
    cases skb with
    | none => exact absurd hX (by simp [dfinPick])
    | some k =>
      rw [show dfinPick m (some k) z =
          (if m.sk_shutdown_rcv && k.is_data_fin then
             m.subs.find? (fun s =>
               decide (s.path_index = m.dfin_path_index) &&
                 mptcp_is_available s (some k) z)
           else none) from rfl] at hX
      by_cases hdf : (m.sk_shutdown_rcv && k.is_data_fin) = true
      · rw [if_pos hdf] at hX
        have hp := List.find?_some hX
        simp only [Bool.and_eq_true] at hp
        rw [← hS]
        exact available_not_def _ _ _ hp.2
      · rw [if_neg hdf] at hX
        exact absurd hX (by simp)
  | none =>
    rw [hX] at h
    simp only [gasCore] at h
    by_cases h1 : (get_subflow_from_selectors m.subs skb subflow_is_active
        z).force = true
    · rw [if_pos h1] at h
      exact available_not_def _ _ _ (pick_sk_candidate _ _ _ _ _ h).2.2
    · rw [if_neg h1] at h
      by_cases h2 : (!(get_subflow_from_selectors m.subs skb subflow_is_backup
          z).force && skb.isSome) = true
      · rw [if_pos h2] at h
        by_cases h3 : (get_subflow_from_selectors m.subs
            (skb.map skbClearMask) subflow_is_active z).force = true
        · rw [if_pos h3] at h
          exact available_not_def _ _ _ (pick_sk_candidate _ _ _ _ _ h).2.2
        · rw [if_neg h3] at h
          exact available_not_def _ _ _ (pick_sk_candidate _ _ _ _ _ h).2.2
      · rw [if_neg h2] at h
        exact available_not_def _ _ _ (pick_sk_candidate _ _ _ _ _ h).2.2

/-- C8, witness: the single available subflow is returned and is indeed
not definitively unavailable. -/
theorem c8_witness : mptcp_is_def_unavailable sub0 = false :=
  c8_def_unavailable_never_returned wMetaC8 (some wSkbC8) false sub0 (by decide)

/-- C5: when a selector pass returns `S`, its `srtt_us` is minimal among
the subflows of the same class and the same unused-status that were not
definitively or temporarily unavailable, and among such candidates of
equal `srtt_us` the first one in iteration order is the one kept (the
source compares with strict `<`). -/
theorem c5_shortest_rtt (subs : List Sub) (skb : Option Skb)
    (sel : Sub → Bool) (z : Bool) (S : Sub)
    (h : (get_subflow_from_selectors subs skb sel z).sk = some S) :
    (∀ T ∈ subs, sel T = true →
       mptcp_dont_reinject_skb T skb = mptcp_dont_reinject_skb S skb →
       mptcp_is_def_unavailable T = false →
       mptcp_is_temp_unavailable T skb z = false →
       S.srtt_us ≤ T.srtt_us)
    ∧ (subs.filter (fun T => sel T &&
         (mptcp_dont_reinject_skb T skb == mptcp_dont_reinject_skb S skb) &&
         mptcp_is_available T skb z)).find?
        (fun T => decide (T.srtt_us ≤ S.srtt_us)) = some S := by
  rcases pick_sk_some subs skb sel z S h with
    ⟨_, hmem, hmin, hfind⟩ | ⟨hemp, hmem, hmin, hfind⟩
  · -- S is an unused candidate
    have hSdr : mptcp_dont_reinject_skb S skb = false := by
      have hp := (List.mem_filter.mp hmem).2
      simp only [selCandidateUnused, Bool.and_eq_true, Bool.not_eq_true'] at hp
      exact hp.1.2
    constructor
    · intro T hT hselT hsame hdefT htmpT
      refine hmin T (List.mem_filter.mpr ⟨hT, ?_⟩)
      rw [hSdr] at hsame
      simp [selCandidateUnused, hselT, hsame, mptcp_is_available, hdefT, htmpT]
    · have hfeq : subs.filter (fun T => sel T &&
          (mptcp_dont_reinject_skb T skb == mptcp_dont_reinject_skb S skb) &&
          mptcp_is_available T skb z) = candU subs skb sel z := by
        unfold candU
        apply List.filter_congr
        intro x _
        rw [hSdr]
        cases hdx : mptcp_dont_reinject_skb x skb <;>
          simp [selCandidateUnused, hdx]
      rw [hfeq]
      exact hfind
  · -- no unused candidate exists; S is a (used) candidate
    have hSdr : mptcp_dont_reinject_skb S skb = true := by
      by_contra hn
      rw [Bool.not_eq_true] at hn
      have hm := List.mem_filter.mp hmem
      have hp := hm.2
      simp only [selCandidate, Bool.and_eq_true] at hp
      have hxm : S ∈ candU subs skb sel z :=
        List.mem_filter.mpr ⟨hm.1,
          by simp [selCandidateUnused, hp.1, hn, hp.2]⟩
      rw [List.isEmpty_iff] at hemp
      rw [hemp] at hxm
      exact absurd hxm (List.not_mem_nil S)
    constructor
    · intro T hT hselT hsame hdefT htmpT
      refine hmin T (List.mem_filter.mpr ⟨hT, ?_⟩)
      simp [selCandidate, hselT, mptcp_is_available, hdefT, htmpT]
    · have hfeq : subs.filter (fun T => sel T &&
          (mptcp_dont_reinject_skb T skb == mptcp_dont_reinject_skb S skb) &&
          mptcp_is_available T skb z) = candA subs skb sel z := by
        unfold candA
        apply List.filter_congr
        intro x hx
        rw [hSdr]
        cases hsx : sel x with
        | false => simp [selCandidate, hsx]
        | true =>
          cases havx : mptcp_is_available x skb z with
          | false => simp [selCandidate, hsx, havx]
          | true =>
            have hdx : mptcp_dont_reinject_skb x skb = true := by
              by_contra hn
              rw [Bool.not_eq_true] at hn
              have hxm : x ∈ candU subs skb sel z :=
                List.mem_filter.mpr ⟨hx,
                  by simp [selCandidateUnused, hsx, hn, havx]⟩
              rw [List.isEmpty_iff] at hemp
              rw [hemp] at hxm
              exact absurd hxm (List.not_mem_nil x)
            simp [selCandidate, hsx, havx, hdx]
      rw [hfeq]
      exact hfind

/-- C5, witness at a concrete input: between two fresh active subflows the
faster one (10 ms against 20 ms) is returned, and it is the first element
of the candidate list at or below its own srtt. -/
theorem c5_witness :
    sub0.srtt_us ≤ wSubB.srtt_us ∧
    ([sub0, wSubB].filter (fun T => subflow_is_active T &&
       (mptcp_dont_reinject_skb T (some wSkbC5) ==
         mptcp_dont_reinject_skb sub0 (some wSkbC5)) &&
       mptcp_is_available T (some wSkbC5) false)).find?
      (fun T => decide (T.srtt_us ≤ sub0.srtt_us)) = some sub0 :=
  ⟨(c5_shortest_rtt [sub0, wSubB] (some wSkbC5) subflow_is_active false sub0
      (by decide)).1 wSubB (by decide) (by decide) (by decide) (by decide)
      (by decide),
   (c5_shortest_rtt [sub0, wSubB] (some wSkbC5) subflow_is_active false sub0
      (by decide)).2⟩

/-- Below one MSS the size clamp returns the segment unsplit with
`limit = 0`. -/
theorem nextSegSizeClamp_small (subtp : Sub) (kF : Skb) (reinjF : Int)
    (cwt : Sub → Skb → Nat) (h : kF.len ≤ subtp.mss_now) :
    nextSegSizeClamp subtp kF reinjF cwt =
      ⟨some kF, some subtp, 0, reinjF⟩ := by
  unfold nextSegSizeClamp
  simp [h]

/-- If the size clamp returns a segment, it is the segment it was given. -/
theorem nextSegSizeClamp_skb_eq (subtp : Sub) (kF : Skb) (reinjF : Int)
    (cwt : Sub → Skb → Nat) (K : Skb)
    (hk : (nextSegSizeClamp subtp kF reinjF cwt).skb = some K) : K = kF := by
  unfold nextSegSizeClamp at hk
  split at hk
  · exact (Option.some.inj hk).symm
  · split at hk
    · exact absurd hk (by simp)
    · exact (Option.some.inj hk).symm

/-- If the size clamp reports a subflow, it is the subflow it was given. -/
theorem nextSegSizeClamp_subsk_eq (subtp : Sub) (kF : Skb) (reinjF : Int)
    (cwt : Sub → Skb → Nat) (S : Sub)
    (hs : (nextSegSizeClamp subtp kF reinjF cwt).subsk = some S) :
    S = subtp := by
  unfold nextSegSizeClamp at hs
  split at hs
  · exact (Option.some.inj hs).symm
  · split at hs
    · exact (Option.some.inj hs).symm
    · exact (Option.some.inj hs).symm

/-- C3 (amended): for every non-⊥ result `(K, S, limit, tag)` of
`next_segment`, `K.len ≤ S.mss_now` implies `limit = 0` (the no-split
signal).  The claimed converse fails: the limit can also be `0` for an
oversized segment when the window clamp collapses (see the
counterexample). -/
theorem c3_no_split_signal (m : Meta) (mem_free : Bool) (now : Nat)
    (u2j : Nat → Nat) (swt : Skb → Nat → Bool) (cwt : Sub → Skb → Nat)
    (K : Skb) (S : Sub)
    (hk : (mptcp_next_segment m mem_free now u2j swt cwt).skb = some K)
    (hs : (mptcp_next_segment m mem_free now u2j swt cwt).subsk = some S)
    (hlen : K.len ≤ S.mss_now) :
    (mptcp_next_segment m mem_free now u2j swt cwt).limit = 0 := by
  unfold mptcp_next_segment at hk hs ⊢
  cases hsq : (mptcpNextSegmentInner m mem_free now u2j).1 with
  | none =>
    rw [hsq] at hk
    simp [nextSegFromInner] at hk
  | some k =>
    rw [hsq] at hk hs
    simp only [nextSegFromInner] at hk hs ⊢
    cases hga : get_available_subflow
        { m with subs := (mptcpNextSegmentInner m mem_free now u2j).2.2 }
        (some k) false with
    | none =>
      rw [hga] at hk
      simp [nextSegWithSubflow] at hk
    | some subtp =>
      rw [hga] at hk hs
      simp only [nextSegWithSubflow] at hk hs ⊢
      cases hstep : nextSegStep m mem_free now u2j swt k
          (mptcpNextSegmentInner m mem_free now u2j).2.1
          (mptcpNextSegmentInner m mem_free now u2j).2.2 subtp with
      | none =>
        rw [hstep] at hk
        simp [nextSegAfterStep] at hk
      | some p =>
        rw [hstep] at hk hs
        obtain ⟨kF, reinjF⟩ := p
        simp only [nextSegAfterStep] at hk hs ⊢
        have hKk : K = kF := nextSegSizeClamp_skb_eq subtp kF reinjF cwt K hk
        have hSs : S = subtp := nextSegSizeClamp_subsk_eq subtp kF reinjF cwt S hs
        rw [nextSegSizeClamp_small subtp kF reinjF cwt
          (by rw [← hKk, ← hSs]; exact hlen)]

/-- C3, counterexample to the claimed equivalence.  The 250-byte segment
exceeds the subflow's 100-byte MSS, the subflow is selected (the
scheduler is consulted with `zero_wnd_test = false`), yet the returned
limit is `0`, because the window clamp `wnd_end − write_seq` is `0`: a
non-⊥ result with `limit = 0` and `K.len > mss_now(S)`. -/
theorem c3_counterexample :
    mptcp_next_segment cxMetaC3 true 0 (fun n => n) (fun _ _ => true)
        (fun _ _ => 10) =
      ⟨some cxSkbC3, some cxSubC3, 0, 1⟩ ∧
    cxSubC3.mss_now < cxSkbC3.len := by
  decide

/-- C3, witness for the amended theorem: a 100-byte segment on a 100-byte
MSS subflow is returned with `limit = 0`. -/
theorem c3_witness :
    (mptcp_next_segment wMetaC3 true 0 (fun n => n) (fun _ _ => true)
       (fun _ _ => 10)).limit = 0 :=
  c3_no_split_signal wMetaC3 true 0 (fun n => n) (fun _ _ => true)
    (fun _ _ => 10) wSkbC3 sub0 (by decide) (by decide) (by decide)

end MptcpSched
